import Mathlib

/-!
Shallow embedding of the yoga-cpp handle/ownership layer
(`include/yoga-cpp/yoga.hpp`) and of the slice of the underlying Yoga
C engine (`YGNode*` functions, Yoga 3.2.1) that the wrapper calls.

Engine node memory is modelled as an association list from node ids
(`Nat`, standing for the opaque `YGNodeRef` pointers) to node records.
A `YGNodeRef` value held by the wrapper is an `Option Nat`, `none`
standing for `nullptr`.

C++ `assert` failures (debug builds) are modelled as `Res.assertFail`;
calling the engine with a null or dangling pointer (undefined behavior)
is modelled as `Res.ub`.
-/

namespace Yoga

/-- Outcome of running a wrapper operation: normal result, a tripped
debug assertion, or undefined behavior (engine entered with an invalid
pointer). -/
inductive Res (α : Type) where
  | ok : α → Res α
  | assertFail : String → Res α
  | ub : Res α
deriving DecidableEq, Repr

/-- One engine-side node: ordered child list, owner (parent) pointer,
the per-node context slot (`YGNodeSetContext` payload, modelled by
value), and the dirty flag. -/
structure EngineNode (Ctx : Type) where
  children : List Nat
  owner : Option Nat
  context : Option Ctx
  dirty : Bool
deriving DecidableEq, Repr

/-- The engine heap: allocated nodes keyed by id, plus the next fresh id. -/
structure EngineState (Ctx : Type) where
  mem : List (Nat × EngineNode Ctx)
  nextId : Nat
deriving DecidableEq, Repr

/-- Look up an allocated engine node by id (`resolveRef`). -/
def EngineState.find? {Ctx : Type} (s : EngineState Ctx) (r : Nat) :
    Option (EngineNode Ctx) :=
  (s.mem.find? (fun p => p.1 == r)).map Prod.snd

/-- Update the engine node stored at id `r` in place. -/
def EngineState.update {Ctx : Type} (s : EngineState Ctx) (r : Nat)
    (f : EngineNode Ctx → EngineNode Ctx) : EngineState Ctx :=
  { s with mem := s.mem.map (fun p => if p.1 = r then (p.1, f p.2) else p) }

/-- Well-formed heap: every allocated id is below the allocation counter,
so a fresh id never collides with a live node. -/
def EngineState.WF {Ctx : Type} (s : EngineState Ctx) : Prop :=
  ∀ p ∈ s.mem, p.1 < s.nextId

instance {Ctx : Type} (s : EngineState Ctx) : Decidable s.WF := by
  unfold EngineState.WF; infer_instance

/-- Engine `YGNodeNew` / `YGNodeNewWithConfig`: allocate a fresh node with
no children, no owner, empty context slot. Returns the new id. -/
def ygNodeNew {Ctx : Type} (s : EngineState Ctx) : Nat × EngineState Ctx :=
  (s.nextId,
   { mem := s.mem ++ [(s.nextId, ⟨[], none, none, false⟩)],
     nextId := s.nextId + 1 })

/-- Engine `YGNodeGetChildCount`: number of children (0 for a dead id,
matching the model's total-function reading; the wrapper never reaches
this case on a live handle). -/
def ygNodeGetChildCount {Ctx : Type} (s : EngineState Ctx) (r : Nat) : Nat :=
  match s.find? r with
  | none => 0
  | some n => n.children.length

/-- Engine `YGNodeGetChild`: the child id at `i`, or null when out of
range (Yoga returns `nullptr` for an out-of-range index). -/
def ygNodeGetChild {Ctx : Type} (s : EngineState Ctx) (r : Nat) (i : Nat) :
    Option Nat :=
  match s.find? r with
  | none => none
  | some n => n.children.get? i

/-- Engine `YGNodeGetParent`: the owner id or null. -/
def ygNodeGetParent {Ctx : Type} (s : EngineState Ctx) (r : Nat) : Option Nat :=
  match s.find? r with
  | none => none
  | some n => n.owner

/-- Engine `YGNodeSetContext`. -/
def ygNodeSetContext {Ctx : Type} (s : EngineState Ctx) (r : Nat)
    (c : Option Ctx) : EngineState Ctx :=
  s.update r (fun n => { n with context := c })

/-- Engine `YGNodeGetContext`. -/
def ygNodeGetContext {Ctx : Type} (s : EngineState Ctx) (r : Nat) : Option Ctx :=
  (s.find? r).bind (fun n => n.context)

/-- Engine `YGNodeInsertChild(owner, child, index)`: Yoga asserts that the
child has no current owner, then inserts the child at `index` in the
owner's child vector and sets the child's owner. An index past the end
would index past the engine's vector (undefined). -/
def ygNodeInsertChild {Ctx : Type} (s : EngineState Ctx)
    (owner child : Nat) (i : Nat) : Res (EngineState Ctx) :=
  match s.find? owner, s.find? child with
  | some ow, some ch =>
      if ch.owner.isSome then
        Res.assertFail "Child already has an owner, it must be removed first."
      else if i ≤ ow.children.length then
        Res.ok (((s.update owner
            (fun n => { n with children := n.children.insertIdx i child })).update
            child (fun n => { n with owner := some owner })))
      else Res.ub
  | _, _ => Res.ub

/-- Engine `YGNodeRemoveChild(owner, excludedChild)`: no-op when the owner
has no children or the excluded node's owner is not this node; otherwise
erase it from the child vector and null its owner. -/
def ygNodeRemoveChild {Ctx : Type} (s : EngineState Ctx)
    (owner child : Nat) : EngineState Ctx :=
  if ygNodeGetChildCount s owner = 0 then s
  else if (s.find? child).bind (fun n => n.owner) = some owner then
    (s.update owner (fun n => { n with children := n.children.erase child })).update
      child (fun n => { n with owner := none })
  else s

/-- Engine `YGNodeFree`: detach the node from its owner if it has one,
orphan its children (null their owner pointers, clear the child list),
then deallocate. -/
def ygNodeFree {Ctx : Type} (s : EngineState Ctx) (r : Nat) : EngineState Ctx :=
  let s1 := match ygNodeGetParent s r with
            | some ow =>
                (s.update ow (fun n => { n with children := n.children.erase r })).update
                  r (fun n => { n with owner := none })
            | none => s
  let s2 := match s1.find? r with
            | some n =>
                (n.children.foldl
                  (fun (acc : EngineState Ctx) c =>
                    acc.update c (fun m => { m with owner := none }))
                  s1).update r (fun m => { m with children := [] })
            | none => s1
  { s2 with mem := s2.mem.filter (fun p => p.1 != r) }

/-- Engine `YGNodeIsDirty`. -/
def ygNodeIsDirty {Ctx : Type} (s : EngineState Ctx) (r : Nat) : Bool :=
  match s.find? r with
  | none => false
  | some n => n.dirty

/-- Engine `YGNodeMarkDirty` (dirty propagation to ancestors is not
needed by any claim and is elided). -/
def ygNodeMarkDirty {Ctx : Type} (s : EngineState Ctx) (r : Nat) :
    EngineState Ctx :=
  s.update r (fun n => { n with dirty := true })

/-- The non-owning wrapper `Yoga::Node<Ctx>`: wraps one nullable
`YGNodeRef` (`_ygNode`). -/
structure Node where
  ygNode : Option Nat
deriving DecidableEq, Repr

/-- The wrapper's `explicit operator bool()`: true iff `_ygNode != nullptr`. -/
def Node.opBool (n : Node) : Bool := n.ygNode.isSome

/-- Wrapper `Node::getRef()`: asserts validity, then returns the raw ref. -/
def Node.getRef (n : Node) : Res Nat :=
  match n.ygNode with
  | none => Res.assertFail "must be a valid node"
  | some r => Res.ok r

/-- Wrapper `Node::getChildCount()`: asserts validity then forwards. -/
def Node.getChildCount {Ctx : Type} (s : EngineState Ctx) (n : Node) : Res Nat :=
  match n.ygNode with
  | none => Res.assertFail "must be a valid node"
  | some r =>
      match s.find? r with
      | none => Res.ub
      | some en => Res.ok en.children.length

/-- Wrapper `Node::getChild(index)`: asserts validity then wraps the
engine's (possibly null) result. -/
def Node.getChild {Ctx : Type} (s : EngineState Ctx) (n : Node) (i : Nat) :
    Res Node :=
  match n.ygNode with
  | none => Res.assertFail "must be a valid node"
  | some r =>
      match s.find? r with
      | none => Res.ub
      | some en => Res.ok ⟨en.children.get? i⟩

/-- Wrapper `Node::getParent()`: asserts validity then wraps the engine's
(possibly null) owner pointer. -/
def Node.getParent {Ctx : Type} (s : EngineState Ctx) (n : Node) : Res Node :=
  match n.ygNode with
  | none => Res.assertFail "must be a valid node"
  | some r =>
      match s.find? r with
      | none => Res.ub
      | some en => Res.ok ⟨en.owner⟩

/-- Wrapper `Node::getContext()`: asserts validity, then returns the
engine context slot as an optional value (`std::nullopt` when the slot
is null). -/
def Node.getContext {Ctx : Type} (s : EngineState Ctx) (n : Node) :
    Res (Option Ctx) :=
  match n.ygNode with
  | none => Res.assertFail "must be a valid node"
  | some r =>
      match s.find? r with
      | none => Res.ub
      | some en => Res.ok en.context

/-- Wrapper `Node::isDirty()`: the one query with NO validity assert in
the source (`return YGNodeIsDirty(_ygNode);`), so a null handle goes
straight into the engine: undefined behavior. -/
def Node.isDirty {Ctx : Type} (s : EngineState Ctx) (n : Node) : Res Bool :=
  match n.ygNode with
  | none => Res.ub
  | some r =>
      match s.find? r with
      | none => Res.ub
      | some en => Res.ok en.dirty

/-- Wrapper `Node::markDirty()`: asserts validity then forwards. -/
def Node.markDirty {Ctx : Type} (s : EngineState Ctx) (n : Node) :
    Res (EngineState Ctx) :=
  match n.ygNode with
  | none => Res.assertFail "must be a valid node"
  | some r =>
      match s.find? r with
      | none => Res.ub
      | some _ => Res.ok (ygNodeMarkDirty s r)

/-- Wrapper `Node::insertChild(child, index)`: asserts this node's
validity; a null child is a silent early `return`; otherwise forwards to
the engine. -/
def Node.insertChildAt {Ctx : Type} (s : EngineState Ctx) (n child : Node)
    (i : Nat) : Res (EngineState Ctx) :=
  match n.ygNode with
  | none => Res.assertFail "must be a valid node"
  | some r =>
      match child.ygNode with
      | none => Res.ok s
      | some c => ygNodeInsertChild s r c i

/-- Wrapper `Node::insertChild(child)` (no index): asserts validity, null
child is a silent no-op, otherwise inserts at `getChildCount()` (append). -/
def Node.insertChild {Ctx : Type} (s : EngineState Ctx) (n child : Node) :
    Res (EngineState Ctx) :=
  match n.ygNode with
  | none => Res.assertFail "must be a valid node"
  | some r =>
      match child.ygNode with
      | none => Res.ok s
      | some c => ygNodeInsertChild s r c (ygNodeGetChildCount s r)

/-- Wrapper `Node::removeChild(child)`: asserts this node's validity; a
null child is a silent early `return`; otherwise forwards to the engine
(which is itself a no-op when the child is not attached here). -/
def Node.removeChild {Ctx : Type} (s : EngineState Ctx) (n child : Node) :
    Res (EngineState Ctx) :=
  match n.ygNode with
  | none => Res.assertFail "must be a valid node"
  | some r =>
      match child.ygNode with
      | none => Res.ok s
      | some c =>
          match s.find? r, s.find? c with
          | some _, some _ => Res.ok (ygNodeRemoveChild s r c)
          | _, _ => Res.ub

/-- Wrapper `Node::calculateLayout`: asserts validity; the engine's
numeric layout pass is a structural no-op in this model. -/
def Node.calculateLayout {Ctx : Type} (s : EngineState Ctx) (n : Node) :
    Res Unit :=
  match n.ygNode with
  | none => Res.assertFail "must be a valid node"
  | some r =>
      match s.find? r with
      | none => Res.ub
      | some _ => Res.ok ()

/-- One step of the child iterator (`Node::ChildIterator`): it stores the
raw parent ref and an index; `operator*` re-queries the engine at deref
time (`Node{YGNodeGetChild(_ygNode, _index)}`). -/
structure ChildIterator where
  ygNode : Nat
  index : Nat
deriving DecidableEq, Repr

/-- Dereference (`ChildIterator::operator*`) against the CURRENT engine
state: nothing is cached but the ref and the index. -/
def ChildIterator.deref {Ctx : Type} (s : EngineState Ctx)
    (it : ChildIterator) : Node :=
  ⟨ygNodeGetChild s it.ygNode it.index⟩

/-- Running a range-for over `ChildView` on an unchanging engine state:
`begin` is index 0, `end` captures `YGNodeGetChildCount` once, and the
loop derefs and increments until the indices meet. `steps` is the number
of remaining iterations (`endIndex - index`). -/
def collectFrom {Ctx : Type} (s : EngineState Ctx) (r : Nat) :
    Nat → Nat → List Node
  | _, 0 => []
  | i, steps + 1 => ChildIterator.deref s ⟨r, i⟩ :: collectFrom s r (i + 1) steps

/-- The handles yielded by iterating `getChildren()` start to finish on a
fixed engine state. -/
def childViewIterate {Ctx : Type} (s : EngineState Ctx) (r : Nat) : List Node :=
  collectFrom s r 0 (ygNodeGetChildCount s r)

/-- The owning wrapper `Yoga::OwningNode<Ctx>`: the raw ref plus the
inline context value (`Ctx _context`). -/
structure OwningNode (Ctx : Type) where
  ygNode : Option Nat
  context : Ctx
deriving DecidableEq, Repr

/-- `OwningNode` move constructor: the new object takes the source's ref
and context; the source's ref is nulled. No engine node is freed. -/
def OwningNode.moveCtor {Ctx : Type} (src : OwningNode Ctx) :
    OwningNode Ctx × OwningNode Ctx :=
  (⟨src.ygNode, src.context⟩, ⟨none, src.context⟩)

/-- Result of an `OwningNode` move assignment: the updated destination,
the moved-from source, and the engine refs freed during the assignment. -/
structure MoveAssignResult (Ctx : Type) where
  dst : OwningNode Ctx
  src : OwningNode Ctx
  freed : List Nat
deriving DecidableEq, Repr

/-- `OwningNode` move assignment (`this != &other` case): free the
destination's previously owned node if any, take the source's ref and
context, null the source's ref. -/
def OwningNode.moveAssign {Ctx : Type} (dst src : OwningNode Ctx) :
    MoveAssignResult Ctx :=
  { dst := ⟨src.ygNode, src.context⟩
    src := ⟨none, src.context⟩
    freed := match dst.ygNode with
             | none => []
             | some r => [r] }

/-- `OwningNode` destructor: frees the owned engine node only when the
ref is non-null; returns the refs freed. -/
def OwningNode.destruct {Ctx : Type} (o : OwningNode Ctx) : List Nat :=
  match o.ygNode with
  | none => []
  | some r => [r]

/-- The `Yoga::Layout<Ctx>` bookkeeping visible to the claims: `_root`
(the root's raw ref; the `Node<Ctx>` member always wraps a non-null ref)
and the refs of the `OwningNode`s held in the `_nodes` vector, in vector
order — the root is created first, so it sits at the front. -/
structure LayoutSt where
  root : Nat
  nodes : List Nat
deriving DecidableEq, Repr

/-- `Layout` constructor: a fresh engine heap with one root node
(emplaced first into `_nodes`, its context default-constructed by the
`OwningNode` constructor, which stores `&_context` in the engine slot).
The 100%-width/height style calls touch no modelled state. -/
def LayoutSt.init {Ctx : Type} [Inhabited Ctx] : EngineState Ctx × LayoutSt :=
  let s0 : EngineState Ctx := ⟨[], 0⟩
  let (r, s1) := ygNodeNew s0
  (ygNodeSetContext s1 r (some default), ⟨r, [r]⟩)

/-- `Layout::createNode()`: emplace a new `OwningNode` built against the
shared config — the `OwningNode` constructor allocates via
`YGNodeNewWithConfig` and points the engine context slot at its
default-constructed `Ctx _context` — and return a non-owning handle. -/
def LayoutSt.createNode {Ctx : Type} [Inhabited Ctx] (s : EngineState Ctx)
    (l : LayoutSt) : Node × EngineState Ctx × LayoutSt :=
  let (r, s1) := ygNodeNew s
  (⟨some r⟩, ygNodeSetContext s1 r (some default),
   { l with nodes := l.nodes ++ [r] })

/-- `Layout::getRoot()`: `Node{_root.getRef()}`. -/
def LayoutSt.getRoot (l : LayoutSt) : Node := ⟨some l.root⟩

/-- `Layout::calculate`: forwards to `_root.calculateLayout`. -/
def LayoutSt.calculate {Ctx : Type} (s : EngineState Ctx) (l : LayoutSt) :
    Res Unit :=
  Node.calculateLayout s l.getRoot

mutual

/-- `Layout::removeNode(node)` translated statement by statement, with a
fuel argument for the recursion (the value is irrelevant once it is
large enough; exhaustion is reported as `Res.ub`, which no claim's run
reaches):

1. `auto nodeRef = node.getRef();` — asserts the handle is non-null;
2. `assert(_nodes.front().getRef() != nodeRef)` — root removal trips it;
3. detach from the parent when there is one;
4. `for (auto child : node.getChildren()) removeNode(child);` — the
   range-for captures `end()` (the child count) once, then derefs the
   live child list at each step while the recursive calls shrink it;
5. `std::erase_if(_nodes, ...)` — destroys the matching `OwningNode`,
   whose destructor runs `YGNodeFree`. -/
def removeNodeAux {Ctx : Type} :
    Nat → EngineState Ctx → LayoutSt → Node → Res (EngineState Ctx × LayoutSt)
  | 0, _, _, _ => Res.ub
  | fuel + 1, s, l, node =>
      match node.ygNode with
      | none => Res.assertFail "must be a valid node"
      | some nodeRef =>
          if l.nodes.head? = some nodeRef then
            Res.assertFail "Cannot remove the root"
          else
            match s.find? nodeRef with
            | none => Res.ub
            | some en =>
                let s1 := match en.owner with
                          | some ow => ygNodeRemoveChild s ow nodeRef
                          | none => s
                match removeChildrenLoop fuel nodeRef
                    (ygNodeGetChildCount s1 nodeRef) 0 s1 l with
                | Res.ok (s2, l2) =>
                    Res.ok (ygNodeFree s2 nodeRef,
                            { l2 with nodes := l2.nodes.filter (· != nodeRef) })
                | Res.assertFail m => Res.assertFail m
                | Res.ub => Res.ub

/-- The body of step 4 above: iterate indices `i` up to the captured
`endIdx`, dereferencing the live child list (`YGNodeGetChild`) at the
state current at that iteration, and recurse into `removeNode`. -/
def removeChildrenLoop {Ctx : Type} :
    Nat → Nat → Nat → Nat → EngineState Ctx → LayoutSt →
    Res (EngineState Ctx × LayoutSt)
  | 0, _, _, _, _, _ => Res.ub
  | fuel + 1, r, endIdx, i, s, l =>
      if i = endIdx then Res.ok (s, l)
      else
        match removeNodeAux fuel s l (ChildIterator.deref s ⟨r, i⟩) with
        | Res.ok (s', l') => removeChildrenLoop fuel r endIdx (i + 1) s' l'
        | Res.assertFail m => Res.assertFail m
        | Res.ub => Res.ub

end

/-! Concrete fixtures, built only through the modelled API: a layout
(root ref 0) holding a node `fxA.1` (ref 1) with two leaf children
`fxB.1` (ref 2) and `fxC.1` (ref 3), context type `Nat`. -/

/-- Fixture: freshly constructed layout. -/
def fxInit : EngineState Nat × LayoutSt := LayoutSt.init

/-- Fixture: create the node that will get two children (ref 1). -/
def fxA : Node × EngineState Nat × LayoutSt :=
  LayoutSt.createNode fxInit.1 fxInit.2

/-- Fixture: create the first child (ref 2). -/
def fxB : Node × EngineState Nat × LayoutSt :=
  LayoutSt.createNode fxA.2.1 fxA.2.2

/-- Fixture: create the second child (ref 3). -/
def fxC : Node × EngineState Nat × LayoutSt :=
  LayoutSt.createNode fxB.2.1 fxB.2.2

/-- Fixture: attach both children to node 1 via `insertChild`. -/
def fxS : EngineState Nat :=
  match Node.insertChild fxC.2.1 fxA.1 fxB.1 with
  | Res.ok s =>
      match Node.insertChild s fxA.1 fxC.1 with
      | Res.ok s2 => s2
      | _ => s
  | _ => fxC.2.1

/-- Fixture: the layout bookkeeping after the three creations. -/
def fxL : LayoutSt := fxC.2.2

/-! Helper lemmas about the heap model. -/

theorem find?_update_self {Ctx : Type} (s : EngineState Ctx) (r : Nat)
    (f : EngineNode Ctx → EngineNode Ctx) :
    (s.update r f).find? r = (s.find? r).map f := by
  unfold EngineState.update EngineState.find?
  induction s.mem with
  | nil => rfl
  | cons hd tl ih =>
      simp only [List.map_cons]
      by_cases h : hd.1 = r
      · rw [if_pos h, List.find?_cons_of_pos _ (by simp [h]),
            List.find?_cons_of_pos _ (by simp [h])]
        simp
      · rw [if_neg h, List.find?_cons_of_neg _ (by simp [h]),
            List.find?_cons_of_neg _ (by simp [h])]
        exact ih

theorem find?_update_ne {Ctx : Type} (s : EngineState Ctx) {q r : Nat}
    (f : EngineNode Ctx → EngineNode Ctx) (h : q ≠ r) :
    (s.update r f).find? q = s.find? q := by
  unfold EngineState.update EngineState.find?
  induction s.mem with
  | nil => rfl
  | cons hd tl ih =>
      simp only [List.map_cons]
      by_cases hq : hd.1 = q
      · have hr : hd.1 ≠ r := by rw [hq]; exact h
        rw [if_neg hr, List.find?_cons_of_pos _ (by simp [hq]),
            List.find?_cons_of_pos _ (by simp [hq])]
      · by_cases hr : hd.1 = r
        · rw [if_pos hr, List.find?_cons_of_neg _ (by simp [hq]),
              List.find?_cons_of_neg _ (by simp [hq])]
          exact ih
        · rw [if_neg hr, List.find?_cons_of_neg _ (by simp [hq]),
              List.find?_cons_of_neg _ (by simp [hq])]
          exact ih

theorem find?_filter_ne {Ctx : Type} (mem : List (Nat × EngineNode Ctx))
    (r : Nat) :
    List.find? (fun p => p.1 == r) (mem.filter (fun p => p.1 != r)) = none := by
  induction mem with
  | nil => rfl
  | cons hd tl ih =>
      by_cases h : hd.1 = r
      · simp only [List.filter_cons, h]
        simpa using ih
      · rw [List.filter_cons, if_pos (by simp [h]),
            List.find?_cons_of_neg _ (by simp [h])]
        exact ih

theorem get?_insertIdx_self (l : List Nat) (i c : Nat) (h : i ≤ l.length) :
    (l.insertIdx i c).get? i = some c := by
  induction i generalizing l with
  | zero => simp [List.insertIdx]
  | succ n ih =>
      cases l with
      | nil => simp at h
      | cons a t =>
          simp only [List.insertIdx_succ_cons, List.get?]
          exact ih t (Nat.le_of_succ_le_succ h)

theorem find?_append_fresh {Ctx : Type} (mem : List (Nat × EngineNode Ctx))
    (r : Nat) (x : EngineNode Ctx) (h : ∀ p ∈ mem, p.1 ≠ r) :
    List.find? (fun p => p.1 == r) (mem ++ [(r, x)]) = some (r, x) := by
  induction mem with
  | nil => simp [List.find?]
  | cons hd tl ih =>
      rw [List.cons_append,
        List.find?_cons_of_neg _ (by simp [h hd (by simp)])]
      exact ih (fun p hp => h p (by simp [hp]))

theorem collectFrom_children {Ctx : Type} (s : EngineState Ctx) (r : Nat)
    (en : EngineNode Ctx) (h : s.find? r = some en) :
    ∀ (steps i : Nat), i + steps = en.children.length →
      collectFrom s r i steps =
        (en.children.drop i).map (fun c => Node.mk (some c)) := by
  intro steps
  induction steps with
  | zero =>
      intro i hi
      rw [Nat.add_zero] at hi
      rw [collectFrom, hi, List.drop_length, List.map_nil]
  | succ n ih =>
      intro i hi
      have hlt : i < en.children.length := by omega
      rw [collectFrom]
      have hd : ChildIterator.deref s ⟨r, i⟩ =
          Node.mk (en.children.get? i) := by
        simp [ChildIterator.deref, ygNodeGetChild, h]
      rw [hd, ih (i + 1) (by omega), List.drop_eq_getElem_cons hlt,
        List.map_cons]
      congr 1
      rw [List.get?_eq_getElem?, List.getElem?_eq_getElem hlt]

/-! Theorems for the claims. -/

/-- C3: for a layout whose root sits (as always, by construction) at the
front of the owned-nodes vector, `Layout::removeNode(getRoot())` is
rejected by the "Cannot remove the root" assertion before any state is
touched, and a subsequent `calculate` on the same (untouched) layout
still succeeds. -/
theorem removeNode_root_rejected {Ctx : Type} (fuel : Nat)
    (s : EngineState Ctx) (l : LayoutSt) (en : EngineNode Ctx)
    (hhead : l.nodes.head? = some l.root) (hlive : s.find? l.root = some en) :
    removeNodeAux (fuel + 1) s l (LayoutSt.getRoot l) =
      Res.assertFail "Cannot remove the root" ∧
    LayoutSt.calculate s l = Res.ok () := by
  constructor
  · simp [removeNodeAux, LayoutSt.getRoot, hhead]
  · simp [LayoutSt.calculate, Node.calculateLayout, LayoutSt.getRoot, hlive]

/-- C3 witness: the fixture layout rejects root removal and still
calculates afterwards. -/
theorem removeNode_root_rejected_witness :
    removeNodeAux 10 fxS fxL (LayoutSt.getRoot fxL) =
      Res.assertFail "Cannot remove the root" ∧
    LayoutSt.calculate fxS fxL = Res.ok () :=
  removeNode_root_rejected 9 fxS fxL ⟨[], none, some 0, false⟩
    (by decide) (by decide)

/-- C4: a node returned by `Layout::createNode` is valid immediately after
creation, has zero children, and its context is the default-constructed
`Ctx` value — the source's `createNode` takes no constructor arguments,
so default construction is the only constructible case. -/
theorem createNode_valid_empty_defaultCtx {Ctx : Type} [Inhabited Ctx]
    (s : EngineState Ctx) (l : LayoutSt) (hwf : s.WF) :
    (LayoutSt.createNode s l).1.opBool = true ∧
    Node.getChildCount (LayoutSt.createNode s l).2.1
      (LayoutSt.createNode s l).1 = Res.ok 0 ∧
    Node.getContext (LayoutSt.createNode s l).2.1
      (LayoutSt.createNode s l).1 = Res.ok (some (default : Ctx)) := by
  have hf1 : (ygNodeNew s).2.find? s.nextId =
      some (⟨[], none, none, false⟩ : EngineNode Ctx) := by
    unfold ygNodeNew EngineState.find?
    rw [find?_append_fresh _ _ _ (fun p hp => Nat.ne_of_lt (hwf p hp))]
    rfl
  have hf : (ygNodeSetContext (ygNodeNew s).2 s.nextId
        (some (default : Ctx))).find? s.nextId =
      some (⟨[], none, some (default : Ctx), false⟩ : EngineNode Ctx) := by
    rw [ygNodeSetContext, find?_update_self, hf1]
    rfl
  refine ⟨rfl, ?_, ?_⟩
  · simp only [LayoutSt.createNode, Node.getChildCount]
    rw [show (ygNodeNew s).1 = s.nextId from rfl, hf]
    rfl
  · simp only [LayoutSt.createNode, Node.getContext]
    rw [show (ygNodeNew s).1 = s.nextId from rfl, hf]

/-- C4 witness: creating a node in the fixture layout yields a valid,
childless node carrying the default context value. -/
theorem createNode_valid_empty_defaultCtx_witness :
    (LayoutSt.createNode fxS fxL).1.opBool = true ∧
    Node.getChildCount (LayoutSt.createNode fxS fxL).2.1
      (LayoutSt.createNode fxS fxL).1 = Res.ok 0 ∧
    Node.getContext (LayoutSt.createNode fxS fxL).2.1
      (LayoutSt.createNode fxS fxL).1 = Res.ok (some (default : Nat)) :=
  createNode_valid_empty_defaultCtx fxS fxL (by decide)

/-- C8 (evaluation at the failing input): `Node::isDirty` on a null
handle performs no assertion — the call reaches the engine with a null
pointer, which is undefined behavior — whereas `markDirty`,
`getChildCount` and `getContext` on the same null handle all trip the
"must be a valid node" assertion, as the spec's uniform policy demands. -/
theorem isDirty_lacks_validity_assert {Ctx : Type} (s : EngineState Ctx) :
    Node.isDirty s ⟨none⟩ = Res.ub ∧
    Node.markDirty s ⟨none⟩ = Res.assertFail "must be a valid node" ∧
    Node.getChildCount s ⟨none⟩ = Res.assertFail "must be a valid node" ∧
    Node.getContext s ⟨none⟩ = Res.assertFail "must be a valid node" :=
  ⟨rfl, rfl, rfl, rfl⟩

/-- C9: exactly-once release discipline of `OwningNode`: move
construction transfers the ref and nulls the source, whose destructor
then frees nothing; move assignment frees exactly the destination's
previously owned ref, takes the source's ref and nulls the source;
destruction frees exactly the owned ref when non-null and nothing
otherwise; and across a move assignment followed by destruction of both
objects — or a move construction followed by destruction of both — each
engine ref is freed exactly once. -/
theorem owningNode_exactly_once_release {Ctx : Type}
    (src dst o : OwningNode Ctx) :
    ((OwningNode.moveCtor src).1.ygNode = src.ygNode ∧
     (OwningNode.moveCtor src).2.ygNode = none ∧
     OwningNode.destruct (OwningNode.moveCtor src).2 = []) ∧
    ((OwningNode.moveAssign dst src).freed = dst.ygNode.toList ∧
     (OwningNode.moveAssign dst src).dst.ygNode = src.ygNode ∧
     (OwningNode.moveAssign dst src).src.ygNode = none) ∧
    OwningNode.destruct o = o.ygNode.toList ∧
    ((OwningNode.moveAssign dst src).freed ++
        OwningNode.destruct (OwningNode.moveAssign dst src).dst ++
        OwningNode.destruct (OwningNode.moveAssign dst src).src =
      dst.ygNode.toList ++ src.ygNode.toList) ∧
    (OwningNode.destruct (OwningNode.moveCtor src).1 ++
        OwningNode.destruct (OwningNode.moveCtor src).2 =
      src.ygNode.toList) := by
  obtain ⟨sr, sc⟩ := src
  obtain ⟨dr, dc⟩ := dst
  obtain ⟨og, oc⟩ := o
  cases sr <;> cases dr <;> cases og <;>
    simp [OwningNode.moveCtor, OwningNode.moveAssign, OwningNode.destruct]

/-- C10: `insertChild` (both overloads) and `removeChild` called with a
child handle wrapping a null engine pointer on a valid parent are silent
no-ops: no assertion fires and the engine state is returned unchanged,
so the parent's child list and count are untouched. -/
theorem nullChild_silent_noop {Ctx : Type} (s : EngineState Ctx) (p i : Nat) :
    Node.insertChildAt s ⟨some p⟩ ⟨none⟩ i = Res.ok s ∧
    Node.insertChild s ⟨some p⟩ ⟨none⟩ = Res.ok s ∧
    Node.removeChild s ⟨some p⟩ ⟨none⟩ = Res.ok s :=
  ⟨rfl, rfl, rfl⟩

/-- C7: iterating `getChildren()` over a live node with child list `cs`
yields exactly `cs.length` handles, the children in insertion order; and
dereferencing a child iterator evaluates against whatever engine state
is current at that access (the position read re-queries the live child
list: the view caches only the ref and the index). -/
theorem getChildren_lazy_in_order {Ctx : Type} (s : EngineState Ctx)
    (r : Nat) (en : EngineNode Ctx) (h : s.find? r = some en) :
    childViewIterate s r = en.children.map (fun c => Node.mk (some c)) ∧
    (childViewIterate s r).length = en.children.length ∧
    (∀ (s2 : EngineState Ctx) (en2 : EngineNode Ctx) (i : Nat),
      s2.find? r = some en2 →
      ChildIterator.deref s2 ⟨r, i⟩ = ⟨en2.children.get? i⟩) := by
  have hcnt : ygNodeGetChildCount s r = en.children.length := by
    simp [ygNodeGetChildCount, h]
  have hmain : childViewIterate s r =
      en.children.map (fun c => Node.mk (some c)) := by
    unfold childViewIterate
    rw [hcnt]
    simpa using collectFrom_children s r en h en.children.length 0 (by omega)
  refine ⟨hmain, by rw [hmain]; simp, ?_⟩
  intro s2 en2 i h2
  simp [ChildIterator.deref, ygNodeGetChild, h2]

/-- C7 witness: in the fixture, iterating node 1's children yields the
two handles in insertion order, and the same iterator position re-read
after a detach sees the mutated child list. -/
theorem getChildren_lazy_in_order_witness :
    childViewIterate fxS 1 = [2, 3].map (fun c => Node.mk (some c)) ∧
    (childViewIterate fxS 1).length = 2 ∧
    ChildIterator.deref (ygNodeRemoveChild fxS 1 2) ⟨1, 0⟩ =
      ⟨[3].get? 0⟩ := by
  have hbase := getChildren_lazy_in_order fxS 1
    ⟨[2, 3], none, some 0, false⟩ (by decide)
  exact ⟨hbase.1, hbase.2.1, hbase.2.2 (ygNodeRemoveChild fxS 1 2)
    ⟨[3], none, some 0, false⟩ 0 (by decide)⟩

/-- C5: for a valid parent and a valid, unattached child of the same
layout and an index within bounds, `insertChild(child, i)` succeeds,
after it `getChild(i)` wraps the child's engine handle, the child's
`getParent()` wraps the parent's handle, the child count grows by
exactly one, and the index-less `insertChild` overload is the indexed
one applied at the current child count (append at the end). -/
theorem insertChild_links_parent_child {Ctx : Type} (s : EngineState Ctx)
    (l : LayoutSt) (p c i : Nat) (pn cn : EngineNode Ctx)
    (hp : s.find? p = some pn) (hc : s.find? c = some cn) (hpc : p ≠ c)
    (hown : cn.owner = none) (hi : i ≤ pn.children.length)
    (_hpl : p ∈ l.nodes) (_hcl : c ∈ l.nodes) :
    ∃ s2, Node.insertChildAt s ⟨some p⟩ ⟨some c⟩ i = Res.ok s2 ∧
      Node.getChild s2 ⟨some p⟩ i = Res.ok ⟨some c⟩ ∧
      Node.getParent s2 ⟨some c⟩ = Res.ok ⟨some p⟩ ∧
      Node.getChildCount s2 ⟨some p⟩ = Res.ok (pn.children.length + 1) ∧
      Node.insertChild s ⟨some p⟩ ⟨some c⟩ =
        Node.insertChildAt s ⟨some p⟩ ⟨some c⟩ pn.children.length := by
  refine ⟨(s.update p
      (fun n => { n with children := n.children.insertIdx i c })).update c
      (fun n => { n with owner := some p }), ?_, ?_, ?_, ?_, ?_⟩
  · simp only [Node.insertChildAt, ygNodeInsertChild, hp, hc, hown,
      Option.isSome_none, Bool.false_eq_true, if_false, if_pos hi]
  · have hfp : ((s.update p
        (fun n => { n with children := n.children.insertIdx i c })).update c
        (fun n => { n with owner := some p })).find? p =
        some { pn with children := pn.children.insertIdx i c } := by
      rw [find?_update_ne _ _ hpc, find?_update_self, hp]
      rfl
    simp only [Node.getChild, hfp]
    rw [get?_insertIdx_self _ _ _ hi]
  · have hfc : ((s.update p
        (fun n => { n with children := n.children.insertIdx i c })).update c
        (fun n => { n with owner := some p })).find? c =
        some { cn with owner := some p } := by
      rw [find?_update_self, find?_update_ne _ _ (Ne.symm hpc), hc]
      rfl
    simp only [Node.getParent, hfc]
  · have hfp : ((s.update p
        (fun n => { n with children := n.children.insertIdx i c })).update c
        (fun n => { n with owner := some p })).find? p =
        some { pn with children := pn.children.insertIdx i c } := by
      rw [find?_update_ne _ _ hpc, find?_update_self, hp]
      rfl
    simp only [Node.getChildCount, hfp]
    rw [List.length_insertIdx _ _ hi]
  · simp only [Node.insertChild, Node.insertChildAt, ygNodeGetChildCount, hp]

/-- C5 witness: in the three-fresh-nodes fixture state, inserting node 2
into node 1 at index 0 links both directions and bumps the count. -/
theorem insertChild_links_parent_child_witness :
    ∃ s2, Node.insertChildAt fxC.2.1 ⟨some 1⟩ ⟨some 2⟩ 0 = Res.ok s2 ∧
      Node.getChild s2 ⟨some 1⟩ 0 = Res.ok ⟨some 2⟩ ∧
      Node.getParent s2 ⟨some 2⟩ = Res.ok ⟨some 1⟩ ∧
      Node.getChildCount s2 ⟨some 1⟩ = Res.ok 1 ∧
      Node.insertChild fxC.2.1 ⟨some 1⟩ ⟨some 2⟩ =
        Node.insertChildAt fxC.2.1 ⟨some 1⟩ ⟨some 2⟩ 0 :=
  insertChild_links_parent_child fxC.2.1 fxC.2.2 1 2 0
    ⟨[], none, some 0, false⟩ ⟨[], none, some 0, false⟩
    (by decide) (by decide) (by decide) rfl (by decide)
    (by decide) (by decide)

/-- C6: for a valid parent with a valid attached child, `removeChild`
succeeds, the child count drops by exactly one, the child's handle stays
valid and its engine node (with its context slot) stays allocated — the
layout's owned collection is untouched, `removeChild` never touches it —
while the child's `getParent()` becomes the null handle, whose validity
check is false. -/
theorem removeChild_detaches_without_destroy {Ctx : Type}
    (s : EngineState Ctx) (l : LayoutSt) (p c : Nat)
    (pn cn : EngineNode Ctx)
    (hp : s.find? p = some pn) (hc : s.find? c = some cn) (hpc : p ≠ c)
    (hown : cn.owner = some p) (hmem : c ∈ pn.children)
    (hcl : c ∈ l.nodes) :
    ∃ s2, Node.removeChild s ⟨some p⟩ ⟨some c⟩ = Res.ok s2 ∧
      Node.getChildCount s2 ⟨some p⟩ = Res.ok (pn.children.length - 1) ∧
      Node.opBool ⟨some c⟩ = true ∧
      s2.find? c = some { cn with owner := none } ∧
      Node.getParent s2 ⟨some c⟩ = Res.ok ⟨none⟩ ∧
      Node.opBool ⟨none⟩ = false ∧
      c ∈ l.nodes := by
  have hcnt : ygNodeGetChildCount s p = pn.children.length := by
    simp [ygNodeGetChildCount, hp]
  have hpos : pn.children.length ≠ 0 := by
    intro h0
    rw [List.length_eq_zero.mp h0] at hmem
    exact absurd hmem (List.not_mem_nil c)
  have hrem : ygNodeRemoveChild s p c =
      (s.update p (fun n => { n with children := n.children.erase c })).update
        c (fun n => { n with owner := none }) := by
    unfold ygNodeRemoveChild
    rw [hcnt, if_neg hpos, hc]
    simp [hown]
  have hfp : ((s.update p
      (fun n => { n with children := n.children.erase c })).update c
      (fun n => { n with owner := none })).find? p =
      some { pn with children := pn.children.erase c } := by
    rw [find?_update_ne _ _ hpc, find?_update_self, hp]
    rfl
  have hfc : ((s.update p
      (fun n => { n with children := n.children.erase c })).update c
      (fun n => { n with owner := none })).find? c =
      some { cn with owner := none } := by
    rw [find?_update_self, find?_update_ne _ _ (Ne.symm hpc), hc]
    rfl
  refine ⟨_, ?_, ?_, rfl, hfc, ?_, rfl, hcl⟩
  · simp only [Node.removeChild, hp, hc, hrem]
  · simp only [Node.getChildCount, hfp]
    rw [List.length_erase_of_mem hmem]
  · simp only [Node.getParent, hfc]

/-- C6 witness: detaching child 2 from node 1 in the fixture drops the
count from 2 to 1, keeps node 2 allocated with its context, and nulls
its parent. -/
theorem removeChild_detaches_without_destroy_witness :
    ∃ s2, Node.removeChild fxS ⟨some 1⟩ ⟨some 2⟩ = Res.ok s2 ∧
      Node.getChildCount s2 ⟨some 1⟩ = Res.ok 1 ∧
      Node.opBool ⟨some 2⟩ = true ∧
      s2.find? 2 = some ⟨[], none, some 0, false⟩ ∧
      Node.getParent s2 ⟨some 2⟩ = Res.ok ⟨none⟩ ∧
      Node.opBool ⟨none⟩ = false ∧
      (2 : Nat) ∈ fxL.nodes :=
  removeChild_detaches_without_destroy fxS fxL 1 2
    ⟨[2, 3], none, some 0, false⟩ ⟨[], some 1, some 0, false⟩
    (by decide) (by decide) (by decide) rfl (by decide) (by decide)

theorem find?_mk_filter {Ctx : Type} (mem : List (Nat × EngineNode Ctx))
    (nid r : Nat) :
    (EngineState.mk (mem.filter (fun p => p.1 != r)) nid).find? r = none := by
  unfold EngineState.find?
  rw [find?_filter_ne]
  rfl

theorem ygNodeFree_find?_self {Ctx : Type} (s : EngineState Ctx) (r : Nat) :
    (ygNodeFree s r).find? r = none := by
  unfold ygNodeFree
  exact find?_mk_filter _ _ _

theorem not_mem_filter_bne (l : List Nat) (r : Nat) :
    r ∉ l.filter (fun x => x != r) := by
  simp [List.mem_filter]

/-- C1 (evaluation at the failing input): on a node with TWO leaf
children the `removeNode` recursion mutates the child list it is
iterating: the first iteration detaches and erases child 2, the second
iteration dereferences index 1 of the now one-element child list —
a null handle — and the recursive `removeNode` call trips the
"must be a valid node" assertion (`node.getRef()`); child 3 and the
node itself are never erased, so their backing entries survive. -/
theorem removeNode_two_children_asserts :
    Node.getChildCount fxS fxA.1 = Res.ok 2 ∧
    removeNodeAux 10 fxS fxL fxA.1 = Res.assertFail "must be a valid node" ∧
    (∃ s1 l1, removeNodeAux 9 fxS fxL (ChildIterator.deref fxS ⟨1, 0⟩) =
        Res.ok (s1, l1) ∧
      ChildIterator.deref s1 ⟨1, 1⟩ = ⟨none⟩ ∧
      (s1.find? 3).isSome = true ∧ 3 ∈ l1.nodes ∧ 1 ∈ l1.nodes) := by
  refine ⟨by decide, by decide, ⟨_, _, rfl, by decide, by decide,
    by decide, by decide⟩⟩

/-- C2 counterexample: removing a (leaf) node returns normally, yet the
caller's handle still passes the validity check — `operator bool` yields
true, not false: `removeNode` takes the handle by const reference and
cannot null it. -/
theorem removeNode_handle_still_true :
    (∃ s2 l2, removeNodeAux 10 fxS fxL fxC.1 = Res.ok (s2, l2)) ∧
    fxC.1.opBool = true :=
  ⟨⟨_, _, rfl⟩, rfl⟩

/-- C2 amended: when `removeNode(N)` returns normally (here: N a leaf
node, attached or not, that is not the root), N's backing entry is
erased from the engine heap and from the layout's owned collection, but
the caller's handle is NOT invalidated: `removeNode` takes it by const
reference, so it still wraps the original non-null pointer and its
validity check still returns true — a dangling handle, the documented
hazard. -/
theorem removeNode_leaf_erases_entry_handle_dangles {Ctx : Type}
    (fuel : Nat) (s : EngineState Ctx) (l : LayoutSt) (r : Nat)
    (en : EngineNode Ctx)
    (hr : s.find? r = some en) (hleaf : en.children = [])
    (hroot : ¬ (l.nodes.head? = some r))
    (how : ∀ ow, en.owner = some ow → ow ≠ r ∧
      ∃ own, s.find? ow = some own ∧ r ∈ own.children) :
    ∃ s2 l2, removeNodeAux (fuel + 2) s l ⟨some r⟩ = Res.ok (s2, l2) ∧
      s2.find? r = none ∧ r ∉ l2.nodes ∧ Node.opBool ⟨some r⟩ = true := by
  cases hcase : en.owner with
  | none =>
      refine ⟨ygNodeFree s r, { l with nodes := l.nodes.filter (· != r) },
        ?_, ygNodeFree_find?_self s r, not_mem_filter_bne l.nodes r, rfl⟩
      have hcnt : ygNodeGetChildCount s r = 0 := by
        simp [ygNodeGetChildCount, hr, hleaf]
      simp only [removeNodeAux, hroot, if_false, hr, hcase, hcnt]
      simp only [removeChildrenLoop, if_pos rfl, if_true]
  | some ow =>
      obtain ⟨hner, own, hfow, hmem⟩ := how ow hcase
      have hcnt_ow : ygNodeGetChildCount s ow = own.children.length := by
        simp [ygNodeGetChildCount, hfow]
      have hpos : ¬ (own.children.length = 0) := by
        intro h0
        rw [List.length_eq_zero.mp h0] at hmem
        exact absurd hmem (List.not_mem_nil r)
      have hrem : ygNodeRemoveChild s ow r =
          (s.update ow (fun n => { n with children := n.children.erase r })).update
            r (fun n => { n with owner := none }) := by
        unfold ygNodeRemoveChild
        rw [hcnt_ow, if_neg hpos, hr]
        simp [hcase]
      have hfr1 : ((s.update ow
          (fun n => { n with children := n.children.erase r })).update r
          (fun n => { n with owner := none })).find? r =
          some { en with owner := none } := by
        rw [find?_update_self, find?_update_ne _ _ (Ne.symm hner), hr]
        rfl
      have hcnt1 : ygNodeGetChildCount ((s.update ow
          (fun n => { n with children := n.children.erase r })).update r
          (fun n => { n with owner := none })) r = 0 := by
        simp [ygNodeGetChildCount, hfr1, hleaf]
      refine ⟨ygNodeFree ((s.update ow
          (fun n => { n with children := n.children.erase r })).update r
          (fun n => { n with owner := none })) r,
        { l with nodes := l.nodes.filter (· != r) },
        ?_, ygNodeFree_find?_self _ r,
        not_mem_filter_bne l.nodes r, rfl⟩
      simp only [removeNodeAux, hroot, if_false, hr, hcase, hrem, hcnt1]
      simp only [removeChildrenLoop, if_pos rfl, if_true]

/-- C2 amended witness: removing the attached leaf node 3 of the fixture
erases its backing entry from heap and collection, while the caller's
handle still passes the validity check. -/
theorem removeNode_leaf_erases_entry_handle_dangles_witness :
    ∃ s2 l2, removeNodeAux 10 fxS fxL ⟨some 3⟩ = Res.ok (s2, l2) ∧
      s2.find? 3 = none ∧ 3 ∉ l2.nodes ∧ Node.opBool ⟨some 3⟩ = true :=
  removeNode_leaf_erases_entry_handle_dangles 8 fxS fxL 3
    ⟨[], some 1, some 0, false⟩ (by decide) rfl (by decide)
    (fun ow h => by
      have how1 : ow = 1 := (Option.some.inj h).symm
      subst how1
      exact ⟨by decide, ⟨[2, 3], none, some 0, false⟩, by decide, by decide⟩)

end Yoga
